import Mathlib

/-!
Verification of the stow persistence layer (src/store.go, src/func.go,
src/enc.go, src/primer.go) against its design specification.

The embedding is shallow: boltdb, the external transactional engine, is
modelled as a finite map from bucket names to buckets, where a bucket is an
association list from byte keys to byte values kept in byte-lexicographic
key order (boltdb stores keys sorted and iterates in that order). Each store
operation is a pure function threading the database state explicitly; a
bolt `Update` transaction commits its changes when the transaction body
returns nil and rolls them back (state unchanged) when the body returns an
error, which is exactly how each operation below is written. Engine error
values follow boltdb's documented behavior: `CreateBucketIfNotExists` fails
on a blank bucket name, `DeleteBucket` fails with a bucket-not-found error
when the named bucket is absent, and `Bucket.Put` rejects a blank key with
ErrKeyRequired, writing nothing — an error value Store.Put discards, just
as the source does at src/store.go:100.

Codecs are modelled functionally: a fresh encoder writing value v into a
buffer produces a byte sequence together with an optional error (the bytes
written before the error are still in the buffer, as in Store.marshal which
appends buf.Bytes() whether or not Encode failed), and a fresh decoder run
on a byte sequence either produces a value or a decode-error message.
-/

namespace Stow

/-- Byte sequences ([]byte in the source), one Nat per byte. -/
abbrev Bytes := List Nat

/-- Byte-lexicographic order on byte sequences, the order boltdb keeps
bucket keys in. -/
def bytesLt : Bytes → Bytes → Bool
  | [], [] => false
  | [], _ :: _ => true
  | _ :: _, [] => false
  | a :: as, b :: bs => if a < b then true else if b < a then false else bytesLt as bs

/-- The error values the modelled operations can surface: stow's ErrNotFound,
boltdb's ErrBucketNotFound, ErrBucketNameRequired and ErrKeyRequired, a
codec encode/decode failure carrying its message, and the invalid-callback
error built by newFuncCall. -/
inductive Err where
  | notFound
  | bucketNotFound
  | bucketNameRequired
  | keyRequired
  | codec (msg : String)
  | invalidCallback (msg : String)
deriving DecidableEq

/-- A boltdb bucket: key-to-bytes association list in sorted key order. -/
abbrev Bucket := List (Bytes × Bytes)

/-- bolt Bucket.Get: the bytes stored under a key, none if absent. -/
def bucketGet (key : Bytes) : Bucket → Option Bytes
  | [] => none
  | kv :: rest => if kv.1 = key then some kv.2 else bucketGet key rest

/-- Overwrite the key in place, or insert it at its sorted position. -/
def bucketInsert (key val : Bytes) : Bucket → Bucket
  | [] => [(key, val)]
  | kv :: rest =>
    if kv.1 = key then (key, val) :: rest
    else if bytesLt key kv.1 then (key, val) :: kv :: rest
    else kv :: bucketInsert key val rest

/-- bolt Bucket.Put: a blank key is rejected with ErrKeyRequired and the
bucket is left unchanged; otherwise the key is overwritten in place or
inserted at its sorted position. Returns Put's error value alongside the
bucket's new contents. -/
def bucketPut (key val : Bytes) (b : Bucket) : Option Err × Bucket :=
  if key = [] then (some .keyRequired, b)
  else (none, bucketInsert key val b)

/-- bolt Bucket.Delete: remove the key. -/
def bucketDelete (key : Bytes) : Bucket → Bucket
  | [] => []
  | kv :: rest => if kv.1 = key then bucketDelete key rest else kv :: bucketDelete key rest

/-- The engine state: buckets by name. -/
abbrev DB := List (Bytes × Bucket)

/-- bolt Tx.Bucket: the named bucket, none if absent. -/
def dbGetBucket (name : Bytes) : DB → Option Bucket
  | [] => none
  | nb :: rest => if nb.1 = name then some nb.2 else dbGetBucket name rest

/-- Commit a bucket's new contents under its name (the effect of mutating a
bucket handle inside a transaction that then commits). -/
def dbSetBucket (name : Bytes) (b : Bucket) : DB → DB
  | [] => [(name, b)]
  | nb :: rest => if nb.1 = name then (name, b) :: rest else nb :: dbSetBucket name b rest

/-- Remove a bucket and its contents from the engine state. -/
def dbRemoveBucket (name : Bytes) : DB → DB
  | [] => []
  | nb :: rest => if nb.1 = name then dbRemoveBucket name rest else nb :: dbRemoveBucket name rest

/-- bolt Tx.CreateBucketIfNotExists: fails on a blank name
(ErrBucketNameRequired), otherwise returns the existing bucket or creates an
empty one. Returns the bucket handle's contents together with the state in
which the bucket exists. -/
def dbCreateBucketIfNotExists (name : Bytes) (db : DB) : Except Err (Bucket × DB) :=
  if name = [] then .error .bucketNameRequired
  else
    match dbGetBucket name db with
    | some b => .ok (b, db)
    | none => .ok ([], dbSetBucket name [] db)

/-- bolt Tx.DeleteBucket: ErrBucketNotFound when the named bucket is absent,
otherwise drops the bucket. -/
def dbDeleteBucket (name : Bytes) (db : DB) : Except Err DB :=
  match dbGetBucket name db with
  | none => .error .bucketNotFound
  | some _ => .ok (dbRemoveBucket name db)

/-- A codec bound to a value type V, as the store uses it (src/enc.go):
`encodeFresh v` is the byte content of a fresh buffer after a fresh
encoder's Encode(v), paired with Encode's error if it failed (the buffer
still holds whatever was written before the failure); `dec data` is a fresh
decoder's Decode over the byte sequence. -/
structure Codec (V : Type) where
  encodeFresh : V → Bytes × Option String
  dec : Bytes → Except String V

/-- src/store.go Store: one codec bound to one bucket name. -/
structure Store (V : Type) where
  bucket : Bytes
  codec : Codec V

/-- Store.marshal: encode into a pooled buffer and copy the buffer's bytes
out; the bytes are returned even when Encode failed. -/
def Store.marshal (s : Store V) (v : V) : Bytes × Option String :=
  s.codec.encodeFresh v

/-- Store.unmarshal: decode the bytes with a fresh decoder. -/
def Store.unmarshal (s : Store V) (data : Bytes) : Except String V :=
  s.codec.dec data

/-- Store.Put: marshal, then run an Update transaction that creates the
bucket if absent and writes key to the marshalled bytes. As in the source,
the marshal error assigned to the named return is overwritten by the
transaction's result (`return s.db.Update(...)`), so only the transaction's
error is ever returned and the write happens regardless; and the return
value of `objects.Put(key, data)` — boltdb's ErrKeyRequired for a blank
key — is dropped on the floor (src/store.go:100), so the transaction still
commits (with nothing stored for a blank key). -/
def Store.Put (s : Store V) (key : Bytes) (b : V) (db : DB) : Option Err × DB :=
  let data := (s.marshal b).1
  match dbCreateBucketIfNotExists s.bucket db with
  | .error e => (some e, db)
  | .ok (objects, db1) => (none, dbSetBucket s.bucket (bucketPut key data objects).2 db1)

/-- Store.Get: one Update transaction that only reads (missing bucket or key
is ErrNotFound, otherwise the bytes are copied out and the transaction
commits with no changes), then unmarshal outside the transaction. -/
def Store.Get (s : Store V) (key : Bytes) (db : DB) : Except Err V × DB :=
  match dbGetBucket s.bucket db with
  | none => (.error .notFound, db)
  | some objects =>
    match bucketGet key objects with
    | none => (.error .notFound, db)
    | some data =>
      match s.codec.dec data with
      | .error e => (.error (.codec e), db)
      | .ok v => (.ok v, db)

/-- Store.Pull: one Update transaction that reads the bytes out and deletes
the key (missing bucket or key is ErrNotFound and rolls back), then, after
the delete has committed, unmarshal outside the transaction. -/
def Store.Pull (s : Store V) (key : Bytes) (db : DB) : Except Err V × DB :=
  match dbGetBucket s.bucket db with
  | none => (.error .notFound, db)
  | some objects =>
    match bucketGet key objects with
    | none => (.error .notFound, db)
    | some data =>
      let db1 := dbSetBucket s.bucket (bucketDelete key objects) db
      match s.codec.dec data with
      | .error e => (.error (.codec e), db1)
      | .ok v => (.ok v, db1)

/-- Store.DeleteAll: one Update transaction returning tx.DeleteBucket's
result directly, so an absent bucket surfaces boltdb's ErrBucketNotFound. -/
def Store.DeleteAll (s : Store V) (db : DB) : Option Err × DB :=
  match dbDeleteBucket s.bucket db with
  | .error e => (some e, db)
  | .ok db1 => (none, db1)

/-!
The dynamic dispatcher (src/func.go). Go's reflect types are modelled by a
small universe `GoType` distinguishing exactly what funcCall inspects: the
string kind, the byte-slice kind, pointers, and everything else (by name).
A value produced for a callback argument is a `DynVal`: the reflect type it
carries plus an abstract payload, the byte representation it was decoded
from (raw key bytes for the string and byte-slice fast paths). The store's
typed unmarshal into a freshly allocated destination of a given type is
modelled by `DynCodec.decodeInto`, whose first argument records the decode
target's type — `reflect.New(t)` followed by `unmarshal(v, ptr)`. -/

/-- The fragment of Go's reflect.Type that funcCall inspects. -/
inductive GoType where
  | string
  | bytes
  | named (n : String)
  | ptr (t : GoType)
deriving DecidableEq

/-- isPtr from src/func.go. -/
def GoType.isPtr : GoType → Bool
  | .ptr _ => true
  | _ => false

/-- typ.Elem() for a pointer type, identity otherwise (the source only calls
Elem after checking isPtr; setValue and setKey strip exactly one pointer). -/
def GoType.stripPtr : GoType → GoType
  | .ptr t => t
  | t => t

/-- The ForEach argument as the dispatcher sees it: whether it is a func at
all, and its declared parameter types. -/
structure Callback where
  isFunc : Bool
  ins : List GoType
deriving DecidableEq

/-- funcCall's resolved shape (src/func.go): whether a key parameter exists,
and the key/value types after setKey/setValue stripped one pointer each.
keyType is only meaningful when hasKey is true (the source leaves it nil
otherwise). -/
structure FuncCall where
  hasKey : Bool
  keyType : GoType
  valType : GoType
deriving DecidableEq

/-- newFuncCall: reject non-funcs, resolve one parameter as value-only,
two parameters as key+value, and any other arity as an error, before any
record is touched. -/
def newFuncCall (fn : Callback) : Except Err FuncCall :=
  if fn.isFunc = false then .error (.invalidCallback "fn is not a func")
  else
    match fn.ins with
    | [t] => .ok { hasKey := false, keyType := .named "", valType := t.stripPtr }
    | [tk, tv] => .ok { hasKey := true, keyType := tk.stripPtr, valType := tv.stripPtr }
    | _ => .error (.invalidCallback "bad number of args in ForEach fn")

/-- An argument value handed to the callback: its reflect type and the bytes
it came from. -/
structure DynVal where
  ty : GoType
  payload : Bytes
deriving DecidableEq

/-- The store's codec as the dispatcher uses it: `decodeInto t data` is
unmarshalling `data` into a freshly allocated destination of type t
(reflect.New(t) then Decode through the pointer), yielding the decoded
payload or the decode error. -/
structure DynCodec where
  decodeInto : GoType → Bytes → Except String Bytes

/-- funcCall.getKey: a string or byte-slice key parameter takes the raw key
bytes directly; otherwise the key bytes are decoded into a freshly
allocated instance of fc.valType — the source's `reflect.New(fc.valType)`,
not the key parameter's type — and dereferenced when the (stripped) key
type is not a pointer. -/
def FuncCall.getKey (fc : FuncCall) (c : DynCodec) (v : Bytes) : Except Err DynVal :=
  if fc.keyType = GoType.string then .ok ⟨GoType.string, v⟩
  else if fc.keyType = GoType.bytes then .ok ⟨GoType.bytes, v⟩
  else
    match c.decodeInto fc.valType v with
    | .error e => .error (.codec e)
    | .ok payload =>
      if fc.keyType.isPtr = false then .ok ⟨fc.valType, payload⟩
      else .ok ⟨GoType.ptr fc.valType, payload⟩

/-- funcCall.getValue: decode the record bytes into a freshly allocated
instance of fc.valType, dereferencing when the stripped value type is not
itself a pointer. -/
def FuncCall.getValue (fc : FuncCall) (c : DynCodec) (v : Bytes) : Except Err DynVal :=
  match c.decodeInto fc.valType v with
  | .error e => .error (.codec e)
  | .ok payload =>
    if fc.valType.isPtr = false then .ok ⟨fc.valType, payload⟩
    else .ok ⟨GoType.ptr fc.valType, payload⟩

/-- funcCall.call: build the value (and, in key+value mode, the key) and
invoke the callback; the result is the argument list of the invocation, or
the decode error that aborts the scan. -/
def FuncCall.call (fc : FuncCall) (c : DynCodec) (k v : Bytes) : Except Err (List DynVal) :=
  match fc.getValue c v with
  | .error e => .error e
  | .ok val =>
    if fc.hasKey = false then .ok [val]
    else
      match fc.getKey c k with
      | .error e => .error e
      | .ok key => .ok [key, val]

/-- bolt Bucket.ForEach over fc.call: visit records in key order, abort on
the first error; the second component is the list of callback invocations
(each an argument list) that actually happened. -/
def scanBucket (fc : FuncCall) (c : DynCodec) : Bucket → Option Err × List (List DynVal)
  | [] => (none, [])
  | kv :: rest =>
    match fc.call c kv.1 kv.2 with
    | .error e => (some e, [])
    | .ok args =>
      match scanBucket fc c rest with
      | (e, calls) => (e, args :: calls)

/-- A store as the dispatcher sees it: bucket name plus the typed decode
the dispatcher performs through the store's codec. -/
structure DynStore where
  bucket : Bytes
  codec : DynCodec

/-- Store.ForEach: build the funcCall (failing before any transaction when
the callback is invalid), then one Update transaction scanning the bucket;
a missing bucket returns nil with no callback invocation. The scan never
writes, so the state comes back unchanged whether the transaction commits
or rolls back. The third component lists the callback invocations made. -/
def DynStore.ForEach (s : DynStore) (fn : Callback) (db : DB) :
    Option Err × DB × List (List DynVal) :=
  match newFuncCall fn with
  | .error e => (some e, db, [])
  | .ok fc =>
    match dbGetBucket s.bucket db with
    | none => (none, db, [])
    | some objects =>
      match scanBucket fc s.codec objects with
      | (e, calls) => (e, db, calls)

/-!
The primed codec (src/primer.go). The base codec is modelled functionally
over an abstract sample-list type T: `encodeSamples types` is what one fresh
encoder writes when encoding the sample list (or its error), and
`decodeSamples data` is one fresh decoder decoding a matching destination
from the byte stream `data` (or its error). Both are deterministic, as a
fresh gob/json/xml encoder or decoder over the same input is. -/

/-- The base codec operations NewPrimedCodec and the primed constructors
perform with the sample list. -/
structure PrimableCodec (T : Type) where
  encodeSamples : T → Except String Bytes
  decodeSamples : Bytes → Except String Unit

/-- primedCodec: the base codec, the sample list, and the snapshot bytes
produced at construction. -/
structure PrimedCodec (T : Type) where
  codec : PrimableCodec T
  types : T
  data : Bytes

/-- NewPrimedCodec: encode the sample list with a fresh encoder into a
buffer (fail construction on error), decode the produced bytes back into a
matching destination with a fresh decoder (fail construction on error), and
keep the produced bytes as the snapshot. -/
def NewPrimedCodec (c : PrimableCodec T) (types : T) : Except String (PrimedCodec T) :=
  match c.encodeSamples types with
  | .error e => .error e
  | .ok buf =>
    match c.decodeSamples buf with
    | .error e => .error e
    | .ok _ => .ok { codec := c, types := types, data := buf }

/-- primedCodec.NewEncoder's replay step: a fresh delegate encoder encodes
the sample list into a discard sink before the real sink is attached. The
result records whether that replayed Encode succeeded (the source discards
the error, relying on construction having validated it). -/
def PrimedCodec.newEncoderReplay (p : PrimedCodec T) : Except String Unit :=
  match p.codec.encodeSamples p.types with
  | .error e => .error e
  | .ok _ => .ok ()

/-- primedCodec.NewDecoder's replay step: a fresh delegate decoder decodes
the snapshot bytes before the real source is attached. -/
def PrimedCodec.newDecoderReplay (p : PrimedCodec T) : Except String Unit :=
  p.codec.decodeSamples p.data

/-! Helper lemmas about the engine model. -/

/-- Reading a key back from the bucket that just stored it yields the stored
bytes. -/
theorem bucketGet_bucketInsert_self (key val : Bytes) (b : Bucket) :
    bucketGet key (bucketInsert key val b) = some val := by
  induction b with
  | nil => simp [bucketInsert, bucketGet]
  | cons kv rest ih =>
    by_cases h : kv.1 = key
    · simp [bucketInsert, h, bucketGet]
    · by_cases h2 : bytesLt key kv.1 <;> simp [bucketInsert, h, h2, bucketGet, ih]

/-- A non-blank key survives bolt Bucket.Put: reading it back yields the
stored bytes. -/
theorem bucketGet_bucketPut_self (key val : Bytes) (b : Bucket) (hk : key ≠ []) :
    bucketGet key (bucketPut key val b).2 = some val := by
  simp [bucketPut, hk, bucketGet_bucketInsert_self]

/-- Looking a bucket up right after committing its contents finds them. -/
theorem dbGetBucket_dbSetBucket_self (name : Bytes) (b : Bucket) (db : DB) :
    dbGetBucket name (dbSetBucket name b db) = some b := by
  induction db with
  | nil => simp [dbSetBucket, dbGetBucket]
  | cons nb rest ih =>
    by_cases h : nb.1 = name <;> simp [dbSetBucket, h, dbGetBucket, ih]

/-- After a bucket is dropped, looking it up fails. -/
theorem dbGetBucket_dbRemoveBucket_self (name : Bytes) (db : DB) :
    dbGetBucket name (dbRemoveBucket name db) = none := by
  induction db with
  | nil => simp [dbRemoveBucket, dbGetBucket]
  | cons nb rest ih =>
    by_cases h : nb.1 = name <;> simp [dbRemoveBucket, h, dbGetBucket, ih]

/-! Concrete instances used by witnesses and counterexamples. -/

/-- A codec over Nat that encodes n as the single byte [n] and decodes only
single-byte sequences; anything else is a decode error. -/
def natCodec : Codec Nat where
  encodeFresh n := ([n], none)
  dec bs :=
    match bs with
    | [n] => .ok n
    | _ => .error "bad bytes"

/-- A store binding natCodec to bucket name [10]. -/
def natStore : Store Nat := { bucket := [10], codec := natCodec }

/-- A codec over Nat whose encoder always fails after having written the
byte 7 into the buffer (as a gob encoder that fails part-way leaves a
partial prefix in the buffer). -/
def failingCodec : Codec Nat where
  encodeFresh _ := ([7], some "marshal failed")
  dec _ := .error "marshal failed"

/-- A store binding failingCodec to bucket name [10]. -/
def failingStore : Store Nat := { bucket := [10], codec := failingCodec }

/-- A dispatcher codec whose typed decode always succeeds and returns the
input bytes as the decoded payload. -/
def idDynCodec : DynCodec := { decodeInto := fun _ v => .ok v }

/-! The claims. -/

/-- C1: the claim says a failed marshal returns the marshal error and opens
no write transaction, leaving the bucket and every stored mapping as
before. The code contradicts it: Store.Put assigns the marshal error to its
named return but then overwrites it with `return s.db.Update(...)`, so at
this concrete failing input — a codec whose Encode fails after writing the
byte 7, a Put of value 0 under key [1] into an empty engine — Put returns
nil, opens the transaction anyway, creates the bucket and commits the
partial bytes under the key. -/
theorem put_failed_marshal_still_writes :
    failingStore.Put [1] 0 [] = (none, [([10], [([1], [7])])]) := by decide

/-- C2 counterexample: a Pull whose stored bytes fail to unmarshal returns a
non-nil error, yet the store is changed — the key, present before the call,
is gone afterwards — because the delete committed with the read transaction
before the decode ran. Falsifies the claim at the concrete input: natStore,
key [1], stored bytes [9, 9] which natCodec cannot decode. -/
theorem pull_unmarshal_error_still_deletes :
    (natStore.Pull [1] [([10], [([1], [9, 9])])]).1 = Except.error (Err.codec "bad bytes") ∧
    (natStore.Pull [1] [([10], [([1], [9, 9])])]).2 = [([10], [])] ∧
    bucketGet [1] [([1], [9, 9])] = some [9, 9] := by
  exact ⟨rfl, by decide, by decide⟩

/-- C2 amended: when Pull fails with NotFound (bucket or key absent) the
store is unchanged; but when the stored bytes fail to unmarshal, the error
is reported only after the read-and-delete transaction has committed, so
the key — present before the call — has been removed from the store. -/
theorem pull_error_effect (V : Type) (s : Store V) (key : Bytes) (db : DB) :
    ((s.Pull key db).1 = Except.error Err.notFound → (s.Pull key db).2 = db) ∧
    (∀ msg, (s.Pull key db).1 = Except.error (Err.codec msg) →
      ∃ objects data,
        dbGetBucket s.bucket db = some objects ∧
        bucketGet key objects = some data ∧
        s.codec.dec data = Except.error msg ∧
        (s.Pull key db).2 = dbSetBucket s.bucket (bucketDelete key objects) db) := by
  cases hdb : dbGetBucket s.bucket db with
  | none =>
    refine ⟨fun _ => ?_, fun msg h => ?_⟩
    · simp [Store.Pull, hdb]
    · simp [Store.Pull, hdb] at h
  | some objects =>
    cases hk : bucketGet key objects with
    | none =>
      refine ⟨fun _ => ?_, fun msg h => ?_⟩
      · simp [Store.Pull, hdb, hk]
      · simp [Store.Pull, hdb, hk] at h
    | some data =>
      cases hd : s.codec.dec data with
      | error e =>
        refine ⟨fun h => ?_, fun msg h => ?_⟩
        · simp [Store.Pull, hdb, hk, hd] at h
        · simp [Store.Pull, hdb, hk, hd] at h
          exact ⟨objects, data, rfl, hk, by rw [hd, h], by simp [Store.Pull, hdb, hk, hd]⟩
      | ok v =>
        refine ⟨fun h => ?_, fun msg h => ?_⟩
        · simp [Store.Pull, hdb, hk, hd] at h
        · simp [Store.Pull, hdb, hk, hd] at h

/-- C2 amended, witness: at natStore with key [2] absent from the bucket,
Pull returns NotFound and the store is unchanged. -/
theorem pull_error_effect_witness :
    (natStore.Pull [2] [([10], [([1], [5])])]).2 = [([10], [([1], [5])])] :=
  (pull_error_effect Nat natStore [2] [([10], [([1], [5])])]).1 rfl

/-- C3: the claim says a non-string, non-byte-slice key parameter's bytes
are decoded into a freshly allocated instance of the KEY parameter's type.
The code contradicts it: funcCall.getKey allocates `reflect.New(fc.valType)`
— the VALUE parameter's type — so for the two-parameter callback
func(key Int, value Bool), the key bytes are decoded into a Bool and the
callback's first argument carries the value parameter's type, not the key
parameter's (in Go, reflect's Call panics on the mismatch). Evaluated at
the concrete record with key bytes [1] and value bytes [2] under a codec
whose typed decode always succeeds. -/
theorem getKey_decodes_into_value_type :
    newFuncCall { isFunc := true, ins := [GoType.named "Int", GoType.named "Bool"] } =
      Except.ok { hasKey := true, keyType := GoType.named "Int", valType := GoType.named "Bool" } ∧
    FuncCall.call { hasKey := true, keyType := GoType.named "Int", valType := GoType.named "Bool" }
      idDynCodec [1] [2] =
      Except.ok [⟨GoType.named "Bool", [1]⟩, ⟨GoType.named "Bool", [2]⟩] ∧
    GoType.named "Bool" ≠ GoType.named "Int" := by
  exact ⟨rfl, rfl, by decide⟩

/-- C4 counterexample: DeleteAll forwards tx.DeleteBucket's result, and
boltdb's DeleteBucket fails with ErrBucketNotFound when the bucket is
absent; at the concrete input of a store over an empty engine (no bucket,
as before any Put or right after a previous DeleteAll), DeleteAll returns a
non-nil error, falsifying the claimed idempotence. -/
theorem deleteAll_absent_bucket_errors :
    (natStore.DeleteAll []).1 = some Err.bucketNotFound := by decide

/-- C4 amended: DeleteAll succeeds exactly when the bucket exists — calling
it when the bucket is already absent returns the engine's bucket-not-found
error rather than nil — and after any DeleteAll, error or not, the store
holds zero records (its bucket is absent). -/
theorem deleteAll_effect (V : Type) (s : Store V) (db : DB) :
    dbGetBucket s.bucket (s.DeleteAll db).2 = none ∧
    ((s.DeleteAll db).1 = none ↔ dbGetBucket s.bucket db ≠ none) := by
  cases hdb : dbGetBucket s.bucket db with
  | none =>
    refine ⟨?_, ?_⟩
    · simp [Store.DeleteAll, dbDeleteBucket, hdb]
    · simp [Store.DeleteAll, dbDeleteBucket, hdb]
  | some objects =>
    refine ⟨?_, ?_⟩
    · simp [Store.DeleteAll, dbDeleteBucket, hdb, dbGetBucket_dbRemoveBucket_self]
    · simp [Store.DeleteAll, dbDeleteBucket, hdb]

/-- C9: Get never modifies the store. Although Get runs inside a write
transaction (db.Update), its transaction body only reads: whether it
succeeds, fails with NotFound, or fails to unmarshal, the engine state
comes back exactly as before the call. -/
theorem get_leaves_store_unchanged (V : Type) (s : Store V) (key : Bytes) (db : DB) :
    (s.Get key db).2 = db := by
  unfold Store.Get
  split
  · rfl
  · split
    · rfl
    · split <;> rfl

/-- After a Put against a store with a legal (non-blank) bucket name, no
error is returned and the store's bucket is the result of bolt's Put of the
marshalled bytes under the key, whatever the bucket held before. -/
theorem put_bucket_after (V : Type) (s : Store V) (k : Bytes) (v : V) (db : DB)
    (hb : s.bucket ≠ []) :
    (s.Put k v db).1 = none ∧
    ∃ objects, dbGetBucket s.bucket (s.Put k v db).2 =
      some (bucketPut k (s.marshal v).1 objects).2 := by
  cases hdb : dbGetBucket s.bucket db with
  | none =>
    have hc : dbCreateBucketIfNotExists s.bucket db = .ok ([], dbSetBucket s.bucket [] db) := by
      unfold dbCreateBucketIfNotExists
      simp [hb, hdb]
    refine ⟨by simp [Store.Put, hc], ⟨[], ?_⟩⟩
    simp [Store.Put, hc, dbGetBucket_dbSetBucket_self]
  | some b0 =>
    have hc : dbCreateBucketIfNotExists s.bucket db = .ok (b0, db) := by
      unfold dbCreateBucketIfNotExists
      simp [hb, hdb]
    refine ⟨by simp [Store.Put, hc], ⟨b0, ?_⟩⟩
    simp [Store.Put, hc, dbGetBucket_dbSetBucket_self]

/-- C5 counterexample: at the blank key — a byte key the claim's "every
byte key k" includes — Put of the perfectly encodable value 5 returns nil
(boltdb's Bucket.Put rejects the blank key with ErrKeyRequired, an error
src/store.go:100 discards, so the transaction commits having stored
nothing) and the subsequent Get fails with NotFound instead of yielding 5.
Falsifies the claim at the concrete input natStore, k = [], v = 5. -/
theorem blank_key_put_get_not_found :
    (natStore.Put [] 5 []).1 = none ∧
    (natStore.Get [] (natStore.Put [] 5 []).2).1 = Except.error Err.notFound := by
  exact ⟨by decide, rfl⟩

/-- C5 amended: for every value the bound codec can encode and decode back
to itself and every NON-BLANK byte key, Put followed by Get succeeds and
returns the value that was put; at the blank key the engine's rejection is
discarded, nothing is stored, and Get fails with NotFound. -/
theorem put_then_get_roundtrip (V : Type) (s : Store V) (k : Bytes) (v : V) (db : DB)
    (hb : s.bucket ≠ [])
    (hk : k ≠ [])
    (he : (s.codec.encodeFresh v).2 = none)
    (hd : s.codec.dec (s.codec.encodeFresh v).1 = Except.ok v) :
    (s.Put k v db).1 = none ∧ (s.Get k (s.Put k v db).2).1 = Except.ok v := by
  obtain ⟨h1, objects, h2⟩ := put_bucket_after V s k v db hb
  refine ⟨h1, ?_⟩
  simp [Store.Get, h2, bucketGet_bucketPut_self, hk, Store.marshal, hd]

/-- C5 amended, witness: Put of 5 under the non-blank key [1] into an empty
engine through natStore, then Get of the same key, returns 5. -/
theorem put_then_get_roundtrip_witness :
    (natStore.Put [1] 5 []).1 = none ∧
    (natStore.Get [1] (natStore.Put [1] 5 []).2).1 = Except.ok 5 :=
  put_then_get_roundtrip Nat natStore [1] 5 [] (by decide) (by decide) (by decide) rfl

/-- C10 counterexample: at the blank key, Put(k, v1) and Put(k, v2) both
return nil (boltdb's Bucket.Put rejects the blank key with ErrKeyRequired,
an error src/store.go:100 discards, so each transaction commits having
stored nothing), but the subsequent Get fails with NotFound instead of
yielding v2. Falsifies the claim at the concrete input natStore, k = [],
v1 = 3, v2 = 5. -/
theorem blank_key_put_put_get_not_found :
    (natStore.Put [] 3 []).1 = none ∧
    (natStore.Put [] 5 (natStore.Put [] 3 []).2).1 = none ∧
    (natStore.Get [] (natStore.Put [] 5 (natStore.Put [] 3 []).2).2).1 =
      Except.error Err.notFound := by
  exact ⟨by decide, by decide, rfl⟩

/-- C10 amended: for every NON-BLANK byte key, Put overwrites silently — a
second Put under the same key returns no error for the duplicate, and a
subsequent Get returns the second value (last write wins); at the blank key
both Puts still return no error but store nothing, and Get fails with
NotFound. -/
theorem put_overwrites_last_wins (V : Type) (s : Store V) (k : Bytes) (v1 v2 : V) (db : DB)
    (hb : s.bucket ≠ [])
    (hk : k ≠ [])
    (h1 : (s.codec.encodeFresh v1).2 = none)
    (h2 : (s.codec.encodeFresh v2).2 = none)
    (hd : s.codec.dec (s.codec.encodeFresh v2).1 = Except.ok v2) :
    (s.Put k v1 db).1 = none ∧
    (s.Put k v2 (s.Put k v1 db).2).1 = none ∧
    (s.Get k (s.Put k v2 (s.Put k v1 db).2).2).1 = Except.ok v2 := by
  obtain ⟨p1, o1, hb1⟩ := put_bucket_after V s k v1 db hb
  obtain ⟨p2, o2, hb2⟩ := put_bucket_after V s k v2 (s.Put k v1 db).2 hb
  refine ⟨p1, p2, ?_⟩
  simp [Store.Get, hb2, bucketGet_bucketPut_self, hk, Store.marshal, hd]

/-- C10 amended, witness: Put 3 then Put 5 under the non-blank key [1]
through natStore both return no error, and Get returns 5. -/
theorem put_overwrites_last_wins_witness :
    (natStore.Put [1] 3 []).1 = none ∧
    (natStore.Put [1] 5 (natStore.Put [1] 3 []).2).1 = none ∧
    (natStore.Get [1] (natStore.Put [1] 5 (natStore.Put [1] 3 []).2).2).1 = Except.ok 5 :=
  put_overwrites_last_wins Nat natStore [1] 3 5 [] (by decide) (by decide) (by decide)
    (by decide) rfl

/-- C6: for every callback of valid shape (a func of one or two
parameters), ForEach over a store whose bucket does not exist returns nil
and performs zero callback invocations, leaving the state unchanged. -/
theorem forEach_missing_bucket_no_calls (s : DynStore) (fn : Callback) (db : DB)
    (hf : fn.isFunc = true)
    (ha : fn.ins.length = 1 ∨ fn.ins.length = 2)
    (hb : dbGetBucket s.bucket db = none) :
    s.ForEach fn db = (none, db, []) := by
  obtain ⟨f, ins⟩ := fn
  have hf2 : f = true := hf
  subst hf2
  cases ins with
  | nil => rcases ha with h | h <;> simp at h
  | cons a tl =>
    cases tl with
    | nil => simp [DynStore.ForEach, newFuncCall, hb]
    | cons b tl2 =>
      cases tl2 with
      | nil => simp [DynStore.ForEach, newFuncCall, hb]
      | cons d tl3 => rcases ha with h | h <;> simp at h

/-- C6 witness: a one-parameter callback over an empty engine returns nil
with no invocations. -/
theorem forEach_missing_bucket_no_calls_witness :
    DynStore.ForEach { bucket := [10], codec := idDynCodec }
      { isFunc := true, ins := [GoType.string] } [] = (none, [], []) :=
  forEach_missing_bucket_no_calls { bucket := [10], codec := idDynCodec }
    { isFunc := true, ins := [GoType.string] } [] rfl (Or.inl rfl) rfl

/-- C7: when the ForEach argument is not a func at all, or is a func whose
parameter count is neither one nor two, ForEach returns an InvalidCallback
error built before the transaction opens: the state comes back unchanged
and no record is visited, whatever the engine holds. -/
theorem forEach_invalid_callback_untouched (s : DynStore) (fn : Callback) (db : DB)
    (h : fn.isFunc = false ∨ (fn.ins.length ≠ 1 ∧ fn.ins.length ≠ 2)) :
    ∃ msg, s.ForEach fn db = (some (Err.invalidCallback msg), db, []) := by
  rcases h with h | ⟨h1, h2⟩
  · exact ⟨"fn is not a func", by simp [DynStore.ForEach, newFuncCall, h]⟩
  · obtain ⟨f, ins⟩ := fn
    cases f with
    | false => exact ⟨"fn is not a func", by simp [DynStore.ForEach, newFuncCall]⟩
    | true =>
      cases ins with
      | nil =>
        exact ⟨"bad number of args in ForEach fn", by simp [DynStore.ForEach, newFuncCall]⟩
      | cons a tl =>
        cases tl with
        | nil => simp at h1
        | cons b tl2 =>
          cases tl2 with
          | nil => simp at h2
          | cons d tl3 =>
            exact ⟨"bad number of args in ForEach fn", by simp [DynStore.ForEach, newFuncCall]⟩

/-- C7 witness: the spec's concrete scenario — a zero-parameter func — is
rejected with an InvalidCallback error and the store is untouched. -/
theorem forEach_invalid_callback_untouched_witness :
    ∃ msg, DynStore.ForEach { bucket := [10], codec := idDynCodec }
      { isFunc := true, ins := [] } [([10], [([1], [5])])] =
      (some (Err.invalidCallback msg), [([10], [([1], [5])])], []) :=
  forEach_invalid_callback_untouched { bucket := [10], codec := idDynCodec }
    { isFunc := true, ins := [] } [([10], [([1], [5])])] (Or.inr ⟨by decide, by decide⟩)

/-- C8: NewPrimedCodec fails exactly when encoding the sample list with the
base codec fails, or when decoding the produced bytes back into a matching
destination fails; and once construction succeeds, the replayed encode
inside every subsequent NewEncoder and the replayed snapshot decode inside
every subsequent NewDecoder complete without error. -/
theorem primed_codec_error_iff_and_replays_ok (T : Type) (c : PrimableCodec T) (types : T) :
    (∀ e, NewPrimedCodec c types = Except.error e ↔
      (c.encodeSamples types = Except.error e ∨
       ∃ d, c.encodeSamples types = Except.ok d ∧ c.decodeSamples d = Except.error e)) ∧
    (∀ p, NewPrimedCodec c types = Except.ok p →
      p.newEncoderReplay = Except.ok () ∧ p.newDecoderReplay = Except.ok ()) := by
  constructor
  · intro e
    cases henc : c.encodeSamples types with
    | error e0 => simp [NewPrimedCodec, henc]
    | ok buf =>
      cases hdec : c.decodeSamples buf with
      | error e1 => simp [NewPrimedCodec, henc, hdec]
      | ok u => simp [NewPrimedCodec, henc, hdec]
  · intro p hp
    cases henc : c.encodeSamples types with
    | error e0 => simp [NewPrimedCodec, henc] at hp
    | ok buf =>
      cases hdec : c.decodeSamples buf with
      | error e1 => simp [NewPrimedCodec, henc, hdec] at hp
      | ok u =>
        simp [NewPrimedCodec, henc, hdec] at hp
        cases u
        subst hp
        constructor
        · simp [PrimedCodec.newEncoderReplay, henc]
        · simp [PrimedCodec.newDecoderReplay, hdec]

end Stow
